import Mathlib

/-!
Verification of the APIGateway repository's core logic against its
specification: the comment-tree assembly algorithm of the comments
service, the aggregation gateway's detail-request join policy, the
request-id correlation middleware, the comment-creation validation,
the comments proxy, and the moderation service's text check.

Go slices of comment structs are modelled as `List GoComment`; Go's
in-place mutation of slice elements is modelled by explicit state
passing (`modifyIdx`), and the append of a struct VALUE into a parent's
children slice is modelled by snapshotting the current element, exactly
as Go's value semantics copy it.
-/

/-- Flat comment record, the fields of the comments-service `Comment`
struct other than the `Children` slice (`src/comments-service/main.go`
lines 20-27).  Timestamps are modelled as integers. -/
structure CommentRec where
  id : Int
  newsId : Int
  parentId : Option Int
  text : String
  createdAt : Int
deriving DecidableEq, Repr

/-- A comments-service `Comment` value: a record together with its
`Children` slice.  The nesting mirrors the Go struct, whose `Children`
field is a slice of `Comment` values. -/
inductive GoComment where
  | mk (record : CommentRec) (children : List GoComment)
deriving Repr

/-- The record part of a comment value. -/
def GoComment.record : GoComment → CommentRec
  | .mk r _ => r

/-- The children slice of a comment value. -/
def GoComment.children : GoComment → List GoComment
  | .mk _ cs => cs

/-- Go map semantics for `commentMap[comments[i].ID] = &comments[i]`
executed for `i` in increasing order: a lookup of `p` returns the last
index whose id equals `p`. -/
def lastIdxWithId (ids : List Int) (p : Int) : Option Nat :=
  (List.range ids.length).foldl
    (fun acc j => if ids[j]? = some p then some j else acc) none

/-- In-place update of the j-th element of a slice, modelling a write
through a pointer into the slice's backing array. -/
def modifyIdx (f : GoComment → GoComment) : Nat → List GoComment → List GoComment
  | _, [] => []
  | 0, x :: xs => f x :: xs
  | n + 1, x :: xs => x :: modifyIdx f n xs

/-- First pass of `buildCommentTree` (`src/comments-service/main.go`
lines 362-366): every element's `Children` slice is reset to an empty
slice (the id-to-pointer map built in the same loop is modelled by
`lastIdxWithId` over the unchanged ids). -/
def resetChildren (s : List GoComment) : List GoComment :=
  s.map (fun c => .mk c.record [])

/-- One iteration of the second pass (`src/comments-service/main.go`
lines 369-376): if element `i` has a parent id that the map resolves to
index `j`, append a VALUE COPY of the current element `i` to element
`j`'s children slice; otherwise leave the state unchanged. -/
def pass2Step (ids : List Int) (s : List GoComment) (i : Nat) : List GoComment :=
  match s[i]? with
  | none => s
  | some c =>
    match c.record.parentId with
    | none => s
    | some p =>
      match lastIdxWithId ids p with
      | none => s
      | some j => modifyIdx (fun g => .mk g.record (g.children ++ [c])) j s

/-- Second pass of `buildCommentTree`: the parent-link loop over all
indices in input order. -/
def pass2 (ids : List Int) (s : List GoComment) : List GoComment :=
  (List.range s.length).foldl (pass2Step ids) s

/-- Third pass of `buildCommentTree` (`src/comments-service/main.go`
lines 379-384): collect, in input order, a value copy of every element
whose parent id is nil. -/
def pass3 (s : List GoComment) : List GoComment :=
  s.foldl (fun acc c => if c.record.parentId.isNone then acc ++ [c] else acc) []

/-- The comments-service `buildCommentTree` (`src/comments-service/main.go`
lines 356-387), modelled with its mutation of the argument slice made
explicit: the result is the pair (mutated slice, returned forest). -/
def buildCommentTreeRun (s : List GoComment) : List GoComment × List GoComment :=
  if s.isEmpty then (s, [])
  else
    let s1 := pass2 (s.map (fun c => c.record.id)) (resetChildren s)
    (s1, pass3 s1)

/-- The forest returned by `buildCommentTree`. -/
def buildCommentTree (s : List GoComment) : List GoComment :=
  (buildCommentTreeRun s).2

/-- The second variant of `buildCommentTree`
(`src/comments-service/main.go` lines 716-741), which collects a root
value copy at the root's own loop index instead of in a final pass. -/
def buildCommentTreeV2 (s : List GoComment) : List GoComment :=
  let ids := s.map (fun c => c.record.id)
  let s0 := resetChildren s
  ((List.range s.length).foldl
    (fun (st : List GoComment × List GoComment) i =>
      match st.1[i]? with
      | none => st
      | some c =>
        match c.record.parentId with
        | none => (st.1, st.2 ++ [c])
        | some p =>
          match lastIdxWithId ids p with
          | none => st
          | some j => (modifyIdx (fun g => .mk g.record (g.children ++ [c])) j st.1, st.2))
    (s0, [])).2

mutual
/-- All records occurring in a comment tree, at any depth. -/
def flattenNode : GoComment → List CommentRec
  | .mk r cs => r :: flattenForest cs
/-- All records occurring in a forest, at any depth. -/
def flattenForest : List GoComment → List CommentRec
  | [] => []
  | c :: cs => flattenNode c ++ flattenForest cs
end

/-! ### The API gateway (`src/api-gateway/main.go`) -/

/-- A gateway-side `Comment` value (`src/api-gateway/main.go` lines
39-48), as decoded from the comments backend's JSON. -/
inductive GwComment where
  | mk (id : Int) (newsId : Int) (parentId : Option Int) (text : String)
       (createdAt : Int) (isModerated : Bool) (isApproved : Bool)
       (children : List GwComment)
deriving Repr

/-- The gateway's `NewsFullDetailed` model (`src/api-gateway/main.go`
lines 28-36). -/
structure NewsFullDetailed where
  id : Int
  title : String
  content : String
  description : String
  pubDate : Int
  link : String
  comments : List GwComment
deriving Repr

/-- The gateway's `CommentRequest` body (`src/api-gateway/main.go`
lines 51-55). -/
structure CommentRequest where
  newsId : Int
  parentId : Option Int
  text : String
deriving DecidableEq, Repr

/-- One digit of an ASCII decimal string. -/
def digitVal? (c : Char) : Option Nat :=
  if '0' ≤ c ∧ c ≤ '9' then some (c.toNat - '0'.toNat) else none

/-- Value of a non-empty all-digit character list. -/
def digitsToNat? : List Char → Option Nat
  | [] => none
  | cs => cs.foldl (fun acc c => match acc, digitVal? c with
      | some n, some d => some (n * 10 + d)
      | _, _ => none) (some 0)

/-- Model of Go's `strconv.Atoi` on a 64-bit platform: an optional
single sign followed by at least one ASCII digit, the whole string
consumed, rejecting values outside the signed 64-bit range. -/
def goAtoi (s : String) : Option Int :=
  match s.data with
  | [] => none
  | c :: rest =>
    let (sign, digits) : Int × List Char :=
      if c = '+' then (1, rest) else if c = '-' then (-1, rest) else (1, c :: rest)
    match digitsToNat? digits with
    | none => none
    | some n =>
      let v : Int := sign * (n : Int)
      if -(2 ^ 63) ≤ v ∧ v ≤ 2 ^ 63 - 1 then some v else none

/-- Model of Go's `strings.TrimPrefix`: drop the prefix when present,
otherwise return the string unchanged. -/
def trimPrefixGo (pre s : String) : String :=
  if pre.data.isPrefixOf s.data then ⟨s.data.drop pre.data.length⟩ else s

/-- White-space test of Go's `strings.TrimSpace` (`unicode.IsSpace`),
restricted to the Latin-1 range actually reachable from the handlers. -/
def goIsSpace (c : Char) : Bool :=
  c = ' ' ∨ c = '\t' ∨ c = '\n' ∨ c = '\r' ∨
    c.toNat = 11 ∨ c.toNat = 12 ∨ c.toNat = 0x85 ∨ c.toNat = 0xA0

/-- Model of Go's `strings.TrimSpace`. -/
def trimSpace (s : String) : String :=
  ⟨((s.data.dropWhile goIsSpace).reverse.dropWhile goIsSpace).reverse⟩

/-- The character set of `generateRequestID`
(`src/api-gateway/main.go` line 140). -/
def requestIDChars : List Char :=
  "abcdefghijklmnopqrstuvwxyzABCDEFGHIJKLMNOPQRSTUVWXYZ0123456789".data

/-- The gateway's `generateRequestID` (`src/api-gateway/main.go` lines
139-146): eight characters drawn from `requestIDChars`, the random
draws `rand.Intn(62)` modelled by the oracle `f`. -/
def generateRequestID (f : Fin 8 → Fin 62) : String :=
  ⟨(List.finRange 8).map (fun i => requestIDChars.getD (f i).val ' ')⟩

/-- The gateway's `requestIDMiddleware` (`src/api-gateway/main.go`
lines 78-91): reuse the `request_id` query parameter when non-empty
(Go's `Query().Get` yields the empty string when absent), otherwise
generate a fresh token. -/
def requestIDMiddleware (q : String) (f : Fin 8 → Fin 62) : String :=
  if q = "" then generateRequestID f else q

/-- The news URL built by the detail handler's first goroutine
(`src/api-gateway/main.go` line 365). -/
def detailNewsURL (id : Int) (rid : String) : String :=
  "http://news-service:8082/news/" ++ toString id ++ "?request_id=" ++ rid

/-- The comments URL built by the detail handler's second goroutine
(`src/api-gateway/main.go` line 397) and by the comments proxy
(`src/api-gateway/main.go` line 201). -/
def detailCommentsURL (id : Int) (rid : String) : String :=
  "http://comments-service:8081/comments/" ++ toString id ++ "?request_id=" ++ rid

/-- The URL built by the gateway's `addCommentHandler`
(`src/api-gateway/main.go` line 483). -/
def addCommentURL (rid : String) : String :=
  "http://comments-service:8081/comments?request_id=" ++ rid

/-- Outcome of one outbound HTTP call, as the calling goroutine can
observe it: a transport error, or a response with a status code and an
optionally decodable body. -/
inductive FetchOutcome (α : Type) where
  | transportError
  | httpResponse (code : Nat) (body : Option α)

/-- Kind of error message carried by a `RequestResult` with non-nil
`Err` in the detail handler. -/
inductive ContentErr where
  | transport
  | notFound
  | badStatus (code : Nat)
  | decode
deriving DecidableEq, Repr

/-- The `RequestResult` values sent on the detail handler's channel
(`src/api-gateway/main.go` lines 72-75). -/
inductive ReqResult where
  | err (kind : ContentErr)
  | newsData (n : NewsFullDetailed)
  | commentsData (cs : List GwComment)

/-- The news goroutine of `newsDetailHandler`
(`src/api-gateway/main.go` lines 361-390): transport failure, a 404,
any other non-200 status and an undecodable body all yield an error
result; a decoded 200 yields the news. -/
def contentCall (o : FetchOutcome NewsFullDetailed) : ReqResult :=
  match o with
  | .transportError => .err .transport
  | .httpResponse code body =>
    if code ≠ 200 then
      if code = 404 then .err .notFound else .err (.badStatus code)
    else
      match body with
      | none => .err .decode
      | some n => .newsData n

/-- The comments goroutine of `newsDetailHandler`
(`src/api-gateway/main.go` lines 393-418): every failure — transport
error, non-200 status, undecodable body — is converted to an empty
comment slice and never to an error result. -/
def commentsCall (o : FetchOutcome (List GwComment)) : ReqResult :=
  match o with
  | .transportError => .commentsData []
  | .httpResponse code body =>
    if code = 200 then
      match body with
      | none => .commentsData []
      | some cs => .commentsData cs
    else .commentsData []

/-- A response written by the detail handler. -/
inductive DetailResponse where
  | badPath (status : Nat) (msg : String)
  | errResp (status : Nat) (kind : ContentErr)
  | ok (status : Nat) (body : NewsFullDetailed)

/-- The status code of a detail response. -/
def DetailResponse.status : DetailResponse → Nat
  | .badPath s _ => s
  | .errResp s _ => s
  | .ok s _ => s

/-- Go zero value of `NewsFullDetailed` (`var news NewsFullDetailed`). -/
def zeroNews : NewsFullDetailed :=
  ⟨0, "", "", "", 0, "", []⟩

/-- The result loop of `newsDetailHandler` (`src/api-gateway/main.go`
lines 427-455): consume channel results in arrival order; on the first
error write a 500 and stop; otherwise record the news and the comments
and finally write a 200 with the comments attached to the news. -/
def mergeLoop : List ReqResult → Option NewsFullDetailed → List GwComment → DetailResponse
  | [], news, comments => .ok 200 { news.getD zeroNews with comments := comments }
  | r :: rest, news, comments =>
    match r with
    | .err k => .errResp 500 k
    | .newsData n => mergeLoop rest (some n) comments
    | .commentsData cs => mergeLoop rest news cs

/-- The gateway's `newsDetailHandler` (`src/api-gateway/main.go` lines
335-456) for a GET request, parameterized by the outcomes of the two
backend calls and by which of the two goroutine results is received
first (`contentFirst`). -/
def newsDetailHandler (path : String) (content : FetchOutcome NewsFullDetailed)
    (comments : FetchOutcome (List GwComment)) (contentFirst : Bool) : DetailResponse :=
  if path.length ≤ "/news/".length then .badPath 400 "Требуется ID новости"
  else
    match goAtoi (trimPrefixGo "/news/" path) with
    | none => .badPath 400 "Неверный ID новости"
    | some _ =>
      let r1 := contentCall content
      let r2 := commentsCall comments
      mergeLoop (if contentFirst then [r1, r2] else [r2, r1]) none []

/-- A response of the gateway's comments proxy; `badPath` is written
before any backend call is made. -/
inductive ProxyResponse where
  | badPath (status : Nat) (msg : String)
  | transportFail (status : Nat)
  | decodeFail (status : Nat)
  | relayed (status : Nat)
  | ok (status : Nat) (body : List GwComment)

/-- The status code of a proxy response. -/
def ProxyResponse.status : ProxyResponse → Nat
  | .badPath s _ => s
  | .transportFail s => s
  | .decodeFail s => s
  | .relayed s => s
  | .ok s _ => s

/-- Whether the proxy made a backend call for this response. -/
def ProxyResponse.calledBackend : ProxyResponse → Bool
  | .badPath _ _ => false
  | _ => true

/-- The gateway's `getCommentsHandler` (`src/api-gateway/main.go` lines
179-224) for a GET request: a path without a parsable integer suffix is
rejected with 400 before any call; a transport failure or an
undecodable 200 body yields 500; a non-200 backend status is relayed
verbatim via `http.Error(w, _, commentsResp.StatusCode)`; a decoded 200
is forwarded. -/
def getCommentsHandler (path : String) (backend : FetchOutcome (List GwComment)) :
    ProxyResponse :=
  if path.length ≤ "/comments/".length then .badPath 400 "News ID required"
  else
    match goAtoi (trimPrefixGo "/comments/" path) with
    | none => .badPath 400 "Invalid news ID"
    | some _ =>
      match backend with
      | .transportError => .transportFail 500
      | .httpResponse code body =>
        if code = 200 then
          match body with
          | some cs => .ok 200 cs
          | none => .decodeFail 500
        else .relayed code

/-- The action the gateway's `addCommentHandler`
(`src/api-gateway/main.go` lines 458-496) takes after decoding the
body: a local 400 with no backend call, or a POST to the comments
service. -/
inductive AddCommentAction where
  | badJSON (status : Nat)
  | localReject (status : Nat) (msg : String)
  | callBackend (url : String) (body : CommentRequest)

/-- Local phase of the gateway's `addCommentHandler`: an undecodable
body, a non-positive `news_id`, or a literally empty `text` are
rejected locally; everything else is forwarded. -/
def addCommentLocal (body : Option CommentRequest) (rid : String) : AddCommentAction :=
  match body with
  | none => .badJSON 400
  | some req =>
    if req.newsId ≤ 0 then .localReject 400 "Требуется ID новости"
    else if req.text = "" then .localReject 400 "Требуется текст комментария"
    else .callBackend (addCommentURL rid) req

/-- Validation and status of the comments-service
`createCommentHandler` (`src/comments-service/main.go` lines 174-234):
400 on undecodable JSON, non-positive `news_id`, text blank after
`strings.TrimSpace`, or a missing parent; otherwise the database writes
are modelled by `dbOk` (201 on success, 500 on a database failure). -/
def createCommentStatus (body : Option CommentRequest) (parentExists : Bool)
    (dbOk : Bool) : Nat :=
  match body with
  | none => 400
  | some req =>
    if req.newsId ≤ 0 then 400
    else if trimSpace req.text = "" then 400
    else if req.parentId.isSome ∧ ¬parentExists then 400
    else if dbOk then 201 else 500

/-- End-to-end comment creation through the gateway: the result is the
pair (was a backend call made, final gateway status).  After a backend
call the gateway relays any status other than 201 verbatim
(`src/api-gateway/main.go` lines 499-502) and responds 201 on a decoded
created comment. -/
def addCommentHandler (body : Option CommentRequest) (rid : String)
    (parentExists dbOk transportOk decodeOk : Bool) : Bool × Nat :=
  match addCommentLocal body rid with
  | .badJSON s => (false, s)
  | .localReject s _ => (false, s)
  | .callBackend _ req =>
    if ¬transportOk then (true, 500)
    else
      let bs := createCommentStatus (some req) parentExists dbOk
      if bs ≠ 201 then (true, bs)
      else if decodeOk then (true, 201) else (true, 500)

/-! ### The moderation service (censorship, `src/api-gateway/main.go`
lines 515-694 of the concatenated source) -/

/-- The moderation service's forbidden word list
(`src/api-gateway/main.go` lines 539-543). -/
def forbiddenWords : List String :=
  ["qwerty", "йцукен", "zxvbnm"]

/-- Model of Go's `strings.ToLower` on one character, restricted to the
ASCII letters and the basic Cyrillic block reachable here. -/
def goToLower (c : Char) : Char :=
  if 'A' ≤ c ∧ c ≤ 'Z' then Char.ofNat (c.toNat + 32)
  else if 0x410 ≤ c.toNat ∧ c.toNat ≤ 0x42F then Char.ofNat (c.toNat + 32)
  else if c.toNat = 0x401 then Char.ofNat 0x451
  else c

/-- Model of Go's `strings.ToLower` on a string. -/
def strToLower (s : String) : String :=
  ⟨s.data.map goToLower⟩

/-- Whether the character list `l` begins with `sub`. -/
def startsWithList : List Char → List Char → Bool
  | [], _ => true
  | _ :: _, [] => false
  | a :: s, b :: t => a = b && startsWithList s t

/-- Whether `sub` occurs contiguously in `l`, modelling Go's
`strings.Contains`. -/
def containsList : List Char → List Char → Bool
  | [], sub => sub.isEmpty
  | l@(_ :: t), sub => startsWithList sub l || containsList t sub

/-- Go's `strings.Contains` on strings. -/
def goContains (s sub : String) : Bool :=
  containsList s.data sub.data

/-- The moderation service's `checkText` (`src/api-gateway/main.go`
lines 667-677): lowercase the text and return false as soon as one
forbidden word (also lowercased) occurs in it. -/
def checkText (text : String) : Bool :=
  forbiddenWords.all (fun w => !(goContains (strToLower text) (strToLower w)))

/-- A response of the moderation service's `censorHandler`: a
plain-text `http.Error`, or a JSON `CensorshipResponse` with a status,
an `is_approved` flag and a message. -/
inductive CensorResult where
  | badRequest (msg : String)
  | json (status : Nat) (isApproved : Bool) (message : String)
deriving DecidableEq, Repr

/-- The moderation service's `censorHandler` (`src/api-gateway/main.go`
lines 621-664) for a POST request: 400 on undecodable JSON or blank
text, otherwise 200 with `is_approved = true` when `checkText` accepts
and 400 with `is_approved = false` when it rejects. -/
def censorHandler (body : Option String) : CensorResult :=
  match body with
  | none => .badRequest "Invalid JSON"
  | some text =>
    if trimSpace text = "" then .badRequest "Text is required"
    else if checkText text then .json 200 true "Comment approved"
    else .json 400 false "Comment contains inappropriate content"

/-! ### Derived functions and helper lemmas -/

/-- The comment slice the comments goroutine delivers to the merge
loop for a given backend outcome. -/
def commentsPayload : FetchOutcome (List GwComment) → List GwComment
  | .transportError => []
  | .httpResponse code body =>
    if code = 200 then (match body with | none => [] | some cs => cs) else []

/-- Failure of the comments backend call: a transport error, a
non-200 status, or an undecodable 200 body. -/
def commFail : FetchOutcome (List GwComment) → Prop
  | .transportError => True
  | .httpResponse code body => code ≠ 200 ∨ body = none

/-- Three-comment chain: a root, its reply, and a reply to the reply,
ordered oldest first as `getCommentsByNewsID` returns them. -/
def c1input : List GoComment :=
  [.mk ⟨1, 1, none, "a", 0⟩ [], .mk ⟨2, 1, some 1, "b", 1⟩ [],
   .mk ⟨3, 1, some 2, "c", 2⟩ []]

/-- Root and one reply, for the second builder variant. -/
def c1inputV2 : List GoComment :=
  [.mk ⟨1, 1, none, "a", 0⟩ [], .mk ⟨2, 1, some 1, "b", 1⟩ []]

/-- The word `w` occurs contiguously in `s`. -/
def occursIn (w s : String) : Prop :=
  ∃ p q, s.data = p ++ w.data ++ q

/-- Every node of a comment tree has a children sequence whose records
form an order-preserving subsequence of `rs`, at every depth. -/
inductive ForestOrdered (rs : List CommentRec) : GoComment → Prop where
  | mk (r : CommentRec) (cs : List GoComment) :
      (cs.map GoComment.record).Sublist rs →
      (∀ c ∈ cs, ForestOrdered rs c) →
      ForestOrdered rs (.mk r cs)

/-- Every node of a comment tree has children in non-decreasing
creation-timestamp order, at every depth. -/
inductive ChildrenChrono : GoComment → Prop where
  | mk (r : CommentRec) (cs : List GoComment) :
      List.Pairwise (fun a b => a.record.createdAt ≤ b.record.createdAt) cs →
      (∀ c ∈ cs, ChildrenChrono c) →
      ChildrenChrono (.mk r cs)

/-- Invariant of the parent-link pass after the first `k` iterations:
records are untouched, every element's children records form a
subsequence of the first `k` input records, and every already-attached
child is a well-ordered snapshot. -/
def StateOk (rs : List CommentRec) (k : Nat) (s : List GoComment) : Prop :=
  s.map GoComment.record = rs ∧
  ∀ c ∈ s, ((c.children.map GoComment.record).Sublist (rs.take k) ∧
    ∀ d ∈ c.children, ForestOrdered rs d)

/-- Slice with the same records as `c1input` but different incoming
children fields. -/
def c5other : List GoComment :=
  [.mk ⟨1, 1, none, "a", 0⟩ [.mk ⟨9, 9, none, "z", 9⟩ []],
   .mk ⟨2, 1, some 1, "b", 1⟩ [], .mk ⟨3, 1, some 2, "c", 2⟩ []]

/-! ### Query encoding used by the list handlers
(`url.Values.Encode`, Go standard library, as called from
`latestNewsHandler` and `filterNewsHandler`) -/

/-- UTF-8 bytes of one character, as Go strings store them. -/
def utf8EncodeChar (c : Char) : List Nat :=
  let n := c.toNat
  if n < 0x80 then [n]
  else if n < 0x800 then
    [0xC0 ||| (n >>> 6), 0x80 ||| (n &&& 0x3F)]
  else if n < 0x10000 then
    [0xE0 ||| (n >>> 12), 0x80 ||| ((n >>> 6) &&& 0x3F), 0x80 ||| (n &&& 0x3F)]
  else
    [0xF0 ||| (n >>> 18), 0x80 ||| ((n >>> 12) &&& 0x3F),
     0x80 ||| ((n >>> 6) &&& 0x3F), 0x80 ||| (n &&& 0x3F)]

/-- Bytes Go's `url.QueryEscape` leaves unescaped: ASCII alphanumerics
and `-`, `_`, `.`, `~`. -/
def isUnreservedQueryByte (b : Nat) : Bool :=
  (0x41 ≤ b ∧ b ≤ 0x5A) ∨ (0x61 ≤ b ∧ b ≤ 0x7A) ∨ (0x30 ≤ b ∧ b ≤ 0x39) ∨
    b = 0x2D ∨ b = 0x5F ∨ b = 0x2E ∨ b = 0x7E

/-- Uppercase hexadecimal digit. -/
def hexDigit (n : Nat) : Char :=
  "0123456789ABCDEF".data.getD n ' '

/-- One escaped byte of Go's `url.QueryEscape`: unreserved bytes kept,
space rendered `+`, every other byte percent-encoded. -/
def queryEscapeByte (b : Nat) : List Char :=
  if isUnreservedQueryByte b then [Char.ofNat b]
  else if b = 0x20 then ['+']
  else ['%', hexDigit (b / 16), hexDigit (b % 16)]

/-- Model of Go's `url.QueryEscape`: escape the UTF-8 bytes of the
string one by one. -/
def queryEscape (s : String) : String :=
  ⟨(s.data.flatMap utf8EncodeChar).flatMap queryEscapeByte⟩

/-- Concatenation with `&` separators, as `url.Values.Encode` builds
its buffer. -/
def joinAmp : List String → String
  | [] => ""
  | [x] => x
  | x :: xs => x ++ "&" ++ joinAmp xs

/-- Model of Go's `url.Values.Encode` for a parameter list with
distinct keys, as the list handlers build one with successive `Add`
calls: sort the pairs by key (Go sorts the key set; with distinct keys
that is the same), render each as `QueryEscape(k)=QueryEscape(v)`, and
join with `&`. -/
def encodePairs (params : List (String × String)) : String :=
  joinAmp ((params.mergeSort (fun a b => a.1 ≤ b.1)).map
    (fun kv => queryEscape kv.1 ++ "=" ++ queryEscape kv.2))

/-- The parameter list built by `latestNewsHandler`
(`src/api-gateway/main.go` lines 239-246): `page` and `s` copied from
the inbound query when non-empty, then `request_id`. -/
def latestParams (page s rid : String) : List (String × String) :=
  (if page ≠ "" then [("page", page)] else []) ++
  (if s ≠ "" then [("s", s)] else []) ++
  [("request_id", rid)]

/-- The outbound URL of `latestNewsHandler`
(`src/api-gateway/main.go` lines 236-248). -/
def latestNewsURL (page s rid : String) : String :=
  "http://news-service:8082/news/latest?" ++ encodePairs (latestParams page s rid)

/-- The parameter list built by `filterNewsHandler`
(`src/api-gateway/main.go` lines 287-306). -/
def filterParams (page q s dateFrom dateTo sortBy rid : String) :
    List (String × String) :=
  (if page ≠ "" then [("page", page)] else []) ++
  (if q ≠ "" then [("q", q)] else []) ++
  (if s ≠ "" then [("s", s)] else []) ++
  (if dateFrom ≠ "" then [("date_from", dateFrom)] else []) ++
  (if dateTo ≠ "" then [("date_to", dateTo)] else []) ++
  (if sortBy ≠ "" then [("sort_by", sortBy)] else []) ++
  [("request_id", rid)]

/-- The outbound URL of `filterNewsHandler`
(`src/api-gateway/main.go` lines 284-308). -/
def filterNewsURL (page q s dateFrom dateTo sortBy rid : String) : String :=
  "http://news-service:8082/news/filter?"
    ++ encodePairs (filterParams page q s dateFrom dateTo sortBy rid)

theorem commentsCall_eq (m : FetchOutcome (List GwComment)) :
    commentsCall m = .commentsData (commentsPayload m) := by
  cases m with
  | transportError => rfl
  | httpResponse code body =>
    by_cases h : code = 200
    · subst h; cases body <;> rfl
    · simp [commentsCall, commentsPayload, h]

theorem commFail_payload (m : FetchOutcome (List GwComment)) (h : commFail m) :
    commentsPayload m = [] := by
  cases m with
  | transportError => rfl
  | httpResponse code body =>
    rcases h with h | h
    · simp [commentsPayload, h]
    · subst h; simp [commentsPayload]

/-! ### Claim C1 -/

/-- C1: the claimed orphan-drop property fails on the code.  The input
record with id 3 has parent id 2, and a record with id 2 is present in
the same input, yet no record with id 3 occurs anywhere in the output
forest of `buildCommentTree`: because the builder appends value copies
of comment structs while later mutating only the slice elements, every
node at depth three or more is silently lost.  The second variant
(`buildCommentTreeV2`) even loses direct children of roots. -/
theorem buildCommentTree_drops_present_parent_record :
    (⟨3, 1, some 2, "c", 2⟩ : CommentRec) ∈ c1input.map GoComment.record ∧
    (2 : Int) ∈ c1input.map (fun c => c.record.id) ∧
    (3 : Int) ∉ (flattenForest (buildCommentTree c1input)).map CommentRec.id ∧
    (⟨2, 1, some 1, "b", 1⟩ : CommentRec) ∈ c1inputV2.map GoComment.record ∧
    (1 : Int) ∈ c1inputV2.map (fun c => c.record.id) ∧
    (2 : Int) ∉ (flattenForest (buildCommentTreeV2 c1inputV2)).map CommentRec.id := by
  decide

/-! ### Claim C2 -/

/-- C2 counterexample: with a syntactically valid id whose content
backend answer is 404, the gateway's response status is 500 — not 404
as claimed — whichever goroutine result is consumed first. -/
theorem newsDetail_notFound_counterexample :
    (newsDetailHandler "/news/999999" (.httpResponse 404 none)
      (.httpResponse 200 (some [])) true).status = 500 ∧
    (newsDetailHandler "/news/999999" (.httpResponse 404 none)
      (.httpResponse 200 (some [])) false).status = 500 ∧
    ¬ (newsDetailHandler "/news/999999" (.httpResponse 404 none)
      (.httpResponse 200 (some [])) true).status = 404 ∧
    ¬ (newsDetailHandler "/news/999999" (.httpResponse 404 none)
      (.httpResponse 200 (some [])) false).status = 404 := by
  decide

/-- C2 amended: for every detail request with a syntactically valid
integer id whose content backend responds 404, the gateway responds
500 (with the not-found error message), regardless of the comments
backend's outcome and of the order in which the two results arrive. -/
theorem newsDetail_notFound_maps_to_500 (path : String) (id : Int)
    (b : Option NewsFullDetailed) (m : FetchOutcome (List GwComment)) (order : Bool)
    (hlen : "/news/".length < path.length)
    (hparse : goAtoi (trimPrefixGo "/news/" path) = some id) :
    newsDetailHandler path (.httpResponse 404 b) m order = .errResp 500 .notFound := by
  have hnle : ¬ path.length ≤ "/news/".length := Nat.not_le.mpr hlen
  have hc : contentCall (.httpResponse 404 b) = .err .notFound := rfl
  simp only [newsDetailHandler, if_neg hnle, hparse, commentsCall_eq, hc]
  cases order <;> rfl

/-- C2 amended witness at a concrete input. -/
theorem newsDetail_notFound_maps_to_500_witness :
    newsDetailHandler "/news/999999" (.httpResponse 404 none) .transportError true
      = .errResp 500 .notFound :=
  newsDetail_notFound_maps_to_500 "/news/999999" 999999 none .transportError true
    (by decide) (by decide)

/-! ### Claim C3 -/

/-- C3: when the content call succeeds (status 200 with a decodable
body), the gateway responds 200 with the item and the comments
payload, in either arrival order; and every comments failure
(transport error, non-200 status, undecodable body) yields the empty
forest, never an error status. -/
theorem newsDetail_absorbs_comment_failures (path : String) (id : Int)
    (n : NewsFullDetailed) (m : FetchOutcome (List GwComment)) (order : Bool)
    (hlen : "/news/".length < path.length)
    (hparse : goAtoi (trimPrefixGo "/news/" path) = some id) :
    newsDetailHandler path (.httpResponse 200 (some n)) m order
      = .ok 200 { n with comments := commentsPayload m } ∧
    (commFail m → newsDetailHandler path (.httpResponse 200 (some n)) m order
      = .ok 200 { n with comments := [] }) := by
  have hnle : ¬ path.length ≤ "/news/".length := Nat.not_le.mpr hlen
  have hc : contentCall (.httpResponse 200 (some n)) = .newsData n := rfl
  have hmain : newsDetailHandler path (.httpResponse 200 (some n)) m order
      = .ok 200 { n with comments := commentsPayload m } := by
    simp only [newsDetailHandler, if_neg hnle, hparse, commentsCall_eq, hc]
    cases order <;> rfl
  exact ⟨hmain, fun hf => by rw [hmain, commFail_payload m hf]⟩

/-- C3 witness: a concrete simulated comments-backend timeout yields a
200 with the item and an empty comment slice. -/
theorem newsDetail_absorbs_comment_failures_witness :
    newsDetailHandler "/news/1" (.httpResponse 200 (some zeroNews)) .transportError true
      = .ok 200 { zeroNews with comments := commentsPayload .transportError } ∧
    (commFail .transportError →
      newsDetailHandler "/news/1" (.httpResponse 200 (some zeroNews)) .transportError true
        = .ok 200 { zeroNews with comments := [] }) :=
  newsDetail_absorbs_comment_failures "/news/1" 1 zeroNews .transportError true
    (by decide) (by decide)

/-! ### Claim C7 -/

/-- C7 counterexample: a body whose text is a single space is empty
after trimming, yet the gateway's local check (`Text == ""`, without
trimming) passes and a backend call is made — refuting the claim that
such requests are resolved locally with no network round trip.  The
final status is still 400, relayed from the backend. -/
theorem addComment_whitespace_counterexample :
    trimSpace " " = "" ∧
    (addCommentHandler (some ⟨1, none, " "⟩) "r" true true true true).1 = true ∧
    addCommentHandler (some ⟨1, none, " "⟩) "r" true true true true = (true, 400) := by
  decide

/-- C7 amended: a non-positive `news_id` or a literally empty `text`
is rejected locally with 400 and no backend call; text that is blank
but non-empty passes the local check, triggers the backend call, and
the backend's 400 is relayed. -/
theorem addComment_local_validation (req : CommentRequest) (rid : String)
    (pe dbOk tOk dOk : Bool) :
    ((req.newsId ≤ 0 ∨ req.text = "") →
      addCommentHandler (some req) rid pe dbOk tOk dOk = (false, 400)) ∧
    (0 < req.newsId → req.text ≠ "" → trimSpace req.text = "" →
      addCommentHandler (some req) rid pe dbOk true dOk = (true, 400)) := by
  constructor
  · rintro (h | h)
    · simp [addCommentHandler, addCommentLocal, h]
    · by_cases hn : req.newsId ≤ 0 <;>
        simp [addCommentHandler, addCommentLocal, hn, h]
  · intro h1 h2 h3
    have hn : ¬ req.newsId ≤ 0 := not_le.mpr h1
    simp [addCommentHandler, addCommentLocal, hn, h2, createCommentStatus, h3]

/-- C7 amended witness at concrete inputs. -/
theorem addComment_local_validation_witness :
    addCommentHandler (some ⟨0, none, "x"⟩) "r" true true true true = (false, 400) ∧
    addCommentHandler (some ⟨1, none, " "⟩) "r" false true true true = (true, 400) :=
  ⟨(addComment_local_validation ⟨0, none, "x"⟩ "r" true true true true).1
      (Or.inl (by decide)),
   (addComment_local_validation ⟨1, none, " "⟩ "r" false true true true).2
      (by decide) (by decide) (by decide)⟩

/-! ### Claim C8 -/

/-- C8 counterexample: a valid id with a backend status of 503 is
relayed as 503, not mapped to 500 as claimed. -/
theorem getComments_relay_counterexample :
    (getCommentsHandler "/comments/5" (.httpResponse 503 none)).status = 503 ∧
    ¬ (getCommentsHandler "/comments/5" (.httpResponse 503 none)).status = 500 := by
  decide

/-- C8 amended: an unparsable id suffix yields 400 with no backend
call; after a call, a transport failure or an undecodable 200 body
yields 500, a non-200 backend status is relayed verbatim, and a
decoded 200 is forwarded as 200 with the forest. -/
theorem getComments_status_mapping (path : String) (id : Int)
    (backend : FetchOutcome (List GwComment)) (code : Nat)
    (body : Option (List GwComment)) :
    ((path.length ≤ "/comments/".length ∨
        goAtoi (trimPrefixGo "/comments/" path) = none) →
      (getCommentsHandler path backend).calledBackend = false ∧
      (getCommentsHandler path backend).status = 400) ∧
    ("/comments/".length < path.length →
      goAtoi (trimPrefixGo "/comments/" path) = some id →
      (backend = .transportError →
        getCommentsHandler path backend = .transportFail 500) ∧
      (backend = .httpResponse code body → ¬ code = 200 →
        getCommentsHandler path backend = .relayed code) ∧
      (backend = .httpResponse 200 none →
        getCommentsHandler path backend = .decodeFail 500) ∧
      (∀ cs, backend = .httpResponse 200 (some cs) →
        getCommentsHandler path backend = .ok 200 cs)) := by
  constructor
  · rintro (h | h)
    · simp [getCommentsHandler, if_pos h, ProxyResponse.calledBackend,
        ProxyResponse.status]
    · by_cases hl : path.length ≤ "/comments/".length <;>
        simp [getCommentsHandler, hl, h, ProxyResponse.calledBackend,
          ProxyResponse.status]
  · intro hlen hparse
    have hnle : ¬ path.length ≤ "/comments/".length := Nat.not_le.mpr hlen
    refine ⟨fun hb => ?_, fun hb hc => ?_, fun hb => ?_, fun cs hb => ?_⟩ <;> subst hb
    · simp [getCommentsHandler, if_neg hnle, hparse]
    · simp [getCommentsHandler, if_neg hnle, hparse, hc]
    · simp [getCommentsHandler, if_neg hnle, hparse]
    · simp [getCommentsHandler, if_neg hnle, hparse]

/-- C8 amended witness at concrete inputs. -/
theorem getComments_status_mapping_witness :
    ((getCommentsHandler "/comments/x" .transportError).calledBackend = false ∧
      (getCommentsHandler "/comments/x" .transportError).status = 400) ∧
    getCommentsHandler "/comments/5" .transportError = .transportFail 500 ∧
    getCommentsHandler "/comments/5" (.httpResponse 503 (none : Option (List GwComment)))
      = .relayed 503 ∧
    getCommentsHandler "/comments/5" (.httpResponse 200 none) = .decodeFail 500 ∧
    getCommentsHandler "/comments/5" (.httpResponse 200 (some [])) = .ok 200 [] :=
  ⟨(getComments_status_mapping "/comments/x" 5 .transportError 200 none).1
      (Or.inr (by decide)),
   ((getComments_status_mapping "/comments/5" 5 .transportError 200 none).2
      (by decide) (by decide)).1 rfl,
   ((getComments_status_mapping "/comments/5" 5 (.httpResponse 503 none) 503 none).2
      (by decide) (by decide)).2.1 rfl (by decide),
   ((getComments_status_mapping "/comments/5" 5 (.httpResponse 200 none) 200 none).2
      (by decide) (by decide)).2.2.1 rfl,
   ((getComments_status_mapping "/comments/5" 5 (.httpResponse 200 (some [])) 200
      (some [])).2 (by decide) (by decide)).2.2.2 [] rfl⟩

/-! ### Claim C10 -/

theorem startsWithList_iff (sub l : List Char) :
    startsWithList sub l = true ↔ ∃ q, l = sub ++ q := by
  induction sub generalizing l with
  | nil => exact iff_of_true rfl ⟨l, rfl⟩
  | cons a s ih =>
    cases l with
    | nil => simp [startsWithList]
    | cons b t =>
      simp only [startsWithList, Bool.and_eq_true, decide_eq_true_eq, ih,
        List.cons_append, List.cons.injEq]
      constructor
      · rintro ⟨rfl, q, rfl⟩; exact ⟨q, rfl, rfl⟩
      · rintro ⟨q, rfl, rfl⟩; exact ⟨rfl, q, rfl⟩

theorem containsList_iff (l sub : List Char) :
    containsList l sub = true ↔ ∃ p q, l = p ++ sub ++ q := by
  induction l with
  | nil =>
    simp only [containsList, List.isEmpty_iff]
    constructor
    · rintro rfl; exact ⟨[], [], rfl⟩
    · rintro ⟨p, q, h⟩
      rcases List.append_eq_nil.mp h.symm with ⟨h1, h2⟩
      exact (List.append_eq_nil.mp h1).2
  | cons a t ih =>
    simp only [containsList, Bool.or_eq_true, startsWithList_iff, ih]
    constructor
    · rintro (⟨q, h⟩ | ⟨p, q, h⟩)
      · exact ⟨[], q, by simpa using h⟩
      · exact ⟨a :: p, q, by simp [h]⟩
    · rintro ⟨p, q, h⟩
      cases p with
      | nil => exact Or.inl ⟨q, by simpa using h⟩
      | cons x p =>
        right
        injection h with h1 h2
        exact ⟨p, q, h2⟩

theorem lower_forbidden (w : String) (hw : w ∈ forbiddenWords) :
    strToLower w = w := by
  fin_cases hw <;> decide

theorem checkText_iff (t : String) :
    checkText t = true ↔ ∀ w ∈ forbiddenWords, ¬ occursIn w (strToLower t) := by
  simp only [checkText, List.all_eq_true, Bool.not_eq_true', goContains]
  constructor
  · intro h w hw hocc
    have hl := h w hw
    rw [lower_forbidden w hw] at hl
    rw [(containsList_iff (strToLower t).data w.data).mpr hocc] at hl
    cases hl
  · intro h w hw
    rw [lower_forbidden w hw]
    rcases hb : containsList (strToLower t).data w.data with _ | _
    · rfl
    · exact absurd ((containsList_iff _ _).mp hb) (h w hw)

/-- C10: for non-blank text, the moderation service approves (HTTP
200, `is_approved = true`) exactly when the lowercased text contains
none of the forbidden words, and rejects with HTTP 400 and
`is_approved = false` when one occurs. -/
theorem censor_approval_iff (text : String) (h : trimSpace text ≠ "") :
    (censorHandler (some text) = .json 200 true "Comment approved" ↔
      ∀ w ∈ forbiddenWords, ¬ occursIn w (strToLower text)) ∧
    ((∃ w ∈ forbiddenWords, occursIn w (strToLower text)) →
      censorHandler (some text)
        = .json 400 false "Comment contains inappropriate content") := by
  by_cases hc : checkText text = true
  · have he : censorHandler (some text) = .json 200 true "Comment approved" := by
      simp [censorHandler, h, hc]
    refine ⟨iff_of_true he ((checkText_iff text).mp hc), ?_⟩
    rintro ⟨w, hw, hocc⟩
    exact absurd hocc (((checkText_iff text).mp hc) w hw)
  · have hcf : checkText text = false := by simp at hc; exact hc
    have he : censorHandler (some text)
        = .json 400 false "Comment contains inappropriate content" := by
      simp [censorHandler, h, hcf]
    refine ⟨iff_of_false ?_ ?_, fun _ => he⟩
    · rw [he]; simp
    · intro hall; exact hc ((checkText_iff text).mpr hall)

/-- C10 witness at a concrete non-blank text. -/
theorem censor_approval_iff_witness :
    (censorHandler (some "hello") = .json 200 true "Comment approved" ↔
      ∀ w ∈ forbiddenWords, ¬ occursIn w (strToLower "hello")) ∧
    ((∃ w ∈ forbiddenWords, occursIn w (strToLower "hello")) →
      censorHandler (some "hello")
        = .json 400 false "Comment contains inappropriate content") :=
  censor_approval_iff "hello" (by decide)

/-! ### Claim C6 -/

theorem requestID_suffix_helper (a b rid : String) (hab : a = b ++ "request_id=") :
    ("request_id=" ++ rid).data <:+ (a ++ rid).data := by
  subst hab
  have hd : ((b ++ "request_id=") ++ rid).data
      = b.data ++ ("request_id=" ++ rid).data := by
    simp [String.data_append, List.append_assoc]
  rw [hd]
  exact List.suffix_append _ _

theorem occursIn_append_left (s t w : String) (h : occursIn w t) :
    occursIn w (s ++ t) := by
  rcases h with ⟨p0, q0, hq⟩
  exact ⟨s.data ++ p0, q0, by rw [String.data_append, hq]; simp [List.append_assoc]⟩

theorem occursIn_joinAmp (x : String) (l : List String) (h : x ∈ l) :
    occursIn x (joinAmp l) := by
  induction l with
  | nil => cases h
  | cons a rest ih =>
    cases rest with
    | nil =>
      rw [List.mem_singleton.mp h]
      exact ⟨[], [], by simp [joinAmp]⟩
    | cons b rest2 =>
      rcases List.mem_cons.mp h with rfl | h2
      · exact ⟨[], ("&" ++ joinAmp (b :: rest2)).data,
          by simp [joinAmp, String.data_append, List.append_assoc]⟩
      · rcases ih h2 with ⟨p0, q0, hq⟩
        exact ⟨(a ++ "&").data ++ p0, q0,
          by simp [joinAmp, String.data_append, hq, List.append_assoc]⟩

theorem mem_params_occursIn (params : List (String × String)) (k v : String)
    (h : (k, v) ∈ params) :
    occursIn (queryEscape k ++ "=" ++ queryEscape v) (encodePairs params) := by
  have hms : (k, v) ∈ params.mergeSort (fun a b => a.1 ≤ b.1) :=
    List.mem_mergeSort.mpr h
  exact occursIn_joinAmp _ _
    (List.mem_map_of_mem (fun kv => queryEscape kv.1 ++ "=" ++ queryEscape kv.2) hms)

theorem queryEscape_request_id_key :
    queryEscape "request_id" ++ "=" = "request_id=" := by decide

/-- C6: the effective request id equals the caller-supplied
`request_id` query value whenever that is non-empty, is the freshly
generated eight-character token when it is empty, and is never empty;
that one token is attached to every outbound call a gateway request
triggers: as the `request_id=` suffix of the two detail-handler URLs,
the comments-proxy URL and the comment-creation URL, and as the value
of the `request_id` pair of the parameter lists the two list handlers
encode into their URLs (where it appears query-escaped, the wire form
of the exact token). -/
theorem requestID_propagation (q : String) (f : Fin 8 → Fin 62) (id : Int)
    (page srch qry dateFrom dateTo sortBy : String) :
    (q ≠ "" → requestIDMiddleware q f = q) ∧
    (q = "" → requestIDMiddleware q f = generateRequestID f) ∧
    requestIDMiddleware q f ≠ "" ∧
    ("request_id=" ++ requestIDMiddleware q f).data
      <:+ (detailNewsURL id (requestIDMiddleware q f)).data ∧
    ("request_id=" ++ requestIDMiddleware q f).data
      <:+ (detailCommentsURL id (requestIDMiddleware q f)).data ∧
    ("request_id=" ++ requestIDMiddleware q f).data
      <:+ (addCommentURL (requestIDMiddleware q f)).data ∧
    ("request_id", requestIDMiddleware q f)
      ∈ latestParams page srch (requestIDMiddleware q f) ∧
    occursIn ("request_id=" ++ queryEscape (requestIDMiddleware q f))
      (latestNewsURL page srch (requestIDMiddleware q f)) ∧
    ("request_id", requestIDMiddleware q f)
      ∈ filterParams page qry srch dateFrom dateTo sortBy (requestIDMiddleware q f) ∧
    occursIn ("request_id=" ++ queryEscape (requestIDMiddleware q f))
      (filterNewsURL page qry srch dateFrom dateTo sortBy (requestIDMiddleware q f)) := by
  have hlmem : ("request_id", requestIDMiddleware q f)
      ∈ latestParams page srch (requestIDMiddleware q f) := by
    simp [latestParams]
  have hfmem : ("request_id", requestIDMiddleware q f)
      ∈ filterParams page qry srch dateFrom dateTo sortBy (requestIDMiddleware q f) := by
    simp [filterParams]
  have hkey : ∀ rid : String, queryEscape "request_id" ++ "=" ++ queryEscape rid
      = "request_id=" ++ queryEscape rid := by
    intro rid
    rw [← queryEscape_request_id_key]
  refine ⟨fun h => if_neg h, fun h => if_pos h, ?_, ?_, ?_, ?_, hlmem, ?_, hfmem, ?_⟩
  · by_cases h : q = ""
    · rw [requestIDMiddleware, if_pos h]
      intro he
      have hd := congrArg String.data he
      simp [generateRequestID] at hd
    · rw [requestIDMiddleware, if_neg h]; exact h
  · exact requestID_suffix_helper _ ("http://news-service:8082/news/" ++ toString id ++ "?") _
      (by rw [show ("?request_id=" : String) = "?" ++ "request_id=" from by decide,
        ← String.append_assoc])
  · exact requestID_suffix_helper _ ("http://comments-service:8081/comments/" ++ toString id ++ "?") _
      (by rw [show ("?request_id=" : String) = "?" ++ "request_id=" from by decide,
        ← String.append_assoc])
  · exact requestID_suffix_helper _ "http://comments-service:8081/comments?" _ (by decide)
  · have h2 := mem_params_occursIn _ _ _ hlmem
    rw [hkey] at h2
    exact occursIn_append_left "http://news-service:8082/news/latest?" _ _ h2
  · have h2 := mem_params_occursIn _ _ _ hfmem
    rw [hkey] at h2
    exact occursIn_append_left "http://news-service:8082/news/filter?" _ _ h2

/-- C6 witness at concrete inputs. -/
theorem requestID_propagation_witness :
    requestIDMiddleware "my_custom_id" (fun _ => 0) = "my_custom_id" ∧
    requestIDMiddleware "" (fun _ => 0) = generateRequestID (fun _ => 0) ∧
    requestIDMiddleware "" (fun _ => 0) ≠ "" ∧
    ("request_id=" ++ requestIDMiddleware "my_custom_id" (fun _ => 0)).data
      <:+ (detailNewsURL 1 (requestIDMiddleware "my_custom_id" (fun _ => 0))).data ∧
    ("request_id", requestIDMiddleware "my_custom_id" (fun _ => 0))
      ∈ latestParams "1" "x" (requestIDMiddleware "my_custom_id" (fun _ => 0)) ∧
    occursIn ("request_id=" ++ queryEscape (requestIDMiddleware "my_custom_id" (fun _ => 0)))
      (latestNewsURL "1" "x" (requestIDMiddleware "my_custom_id" (fun _ => 0))) ∧
    occursIn ("request_id=" ++ queryEscape (requestIDMiddleware "my_custom_id" (fun _ => 0)))
      (filterNewsURL "1" "x" "x" "" "" "" (requestIDMiddleware "my_custom_id" (fun _ => 0))) :=
  ⟨(requestID_propagation "my_custom_id" (fun _ => 0) 1 "1" "x" "x" "" "" "").1 (by decide),
   (requestID_propagation "" (fun _ => 0) 1 "1" "x" "x" "" "" "").2.1 rfl,
   (requestID_propagation "" (fun _ => 0) 1 "1" "x" "x" "" "" "").2.2.1,
   (requestID_propagation "my_custom_id" (fun _ => 0) 1 "1" "x" "x" "" "" "").2.2.2.1,
   (requestID_propagation "my_custom_id" (fun _ => 0) 1 "1" "x" "x" "" "" "").2.2.2.2.2.2.1,
   (requestID_propagation "my_custom_id" (fun _ => 0) 1 "1" "x" "x" "" "" "").2.2.2.2.2.2.2.1,
   (requestID_propagation "my_custom_id" (fun _ => 0) 1 "1" "x" "x" "" "" "").2.2.2.2.2.2.2.2.2⟩

/-! ### Claims C4 and C5: infrastructure -/

theorem take_succ_sublist {α : Type _} (l : List α) (i : Nat) :
    (l.take i).Sublist (l.take (i + 1)) := by
  rw [List.take_succ]
  exact List.sublist_append_left _ _

theorem foldl_range_inv {α : Type _} (step : α → Nat → α) (P : Nat → α → Prop) :
    ∀ (n : Nat) (init : α), P 0 init →
      (∀ i a, i < n → P i a → P (i + 1) (step a i)) →
      P n ((List.range n).foldl step init)
  | 0, init, h0, _ => by simpa using h0
  | n + 1, init, h0, hstep => by
    rw [List.range_succ, List.foldl_append]
    simp only [List.foldl_cons, List.foldl_nil]
    exact hstep n _ (Nat.lt_succ_self n)
      (foldl_range_inv step P n init h0
        (fun i a hi hp => hstep i a (Nat.lt_succ_of_lt hi) hp))

theorem modifyIdx_map_record (f : GoComment → GoComment)
    (hf : ∀ c, (f c).record = c.record) :
    ∀ (j : Nat) (s : List GoComment),
      (modifyIdx f j s).map GoComment.record = s.map GoComment.record
  | j, [] => by cases j <;> rfl
  | 0, x :: xs => by simp [modifyIdx, hf]
  | n + 1, x :: xs => by simp [modifyIdx, modifyIdx_map_record f hf n xs]

theorem mem_modifyIdx (f : GoComment → GoComment) :
    ∀ (j : Nat) (s : List GoComment) (e : GoComment), e ∈ modifyIdx f j s →
      e ∈ s ∨ ∃ d, s[j]? = some d ∧ e = f d
  | j, [], e, he => by cases j <;> simp [modifyIdx] at he
  | 0, x :: xs, e, he => by
    simp only [modifyIdx, List.mem_cons] at he
    rcases he with rfl | he
    · exact Or.inr ⟨x, by simp, rfl⟩
    · exact Or.inl (List.mem_cons_of_mem _ he)
  | n + 1, x :: xs, e, he => by
    simp only [modifyIdx, List.mem_cons] at he
    rcases he with rfl | he
    · exact Or.inl (List.mem_cons_self _ _)
    · rcases mem_modifyIdx f n xs e he with h | ⟨d, hd, hde⟩
      · exact Or.inl (List.mem_cons_of_mem _ h)
      · exact Or.inr ⟨d, by simpa using hd, hde⟩

theorem StateOk.mono (rs : List CommentRec) (k : Nat) (s : List GoComment)
    (h : StateOk rs k s) : StateOk rs (k + 1) s :=
  ⟨h.1, fun c hc =>
    ⟨((h.2 c hc).1).trans (take_succ_sublist rs k), (h.2 c hc).2⟩⟩

theorem forestOrdered_of_mem (rs : List CommentRec) (k : Nat) (s : List GoComment)
    (h : StateOk rs k s) (c : GoComment) (hc : c ∈ s) : ForestOrdered rs c := by
  cases c with
  | mk r cs =>
    have h1 := (h.2 _ hc).1
    have h2 := (h.2 _ hc).2
    simp only [GoComment.children] at h1 h2
    exact ForestOrdered.mk r cs (h1.trans (List.take_sublist k rs)) h2

theorem pass2Step_ok (rs : List CommentRec) (ids : List Int) (k : Nat) (s : List GoComment)
    (hk : k < rs.length) (h : StateOk rs k s) :
    StateOk rs (k + 1) (pass2Step ids s k) := by
  have hslen : s.length = rs.length := by
    have := congrArg List.length h.1
    simpa using this
  rcases hc : s[k]? with _ | c
  · have := List.getElem?_eq_none_iff.mp hc
    omega
  rcases hp : c.record.parentId with _ | p
  · simpa [pass2Step, hc, hp] using h.mono rs k s
  rcases hj : lastIdxWithId ids p with _ | j
  · simpa [pass2Step, hc, hp, hj] using h.mono rs k s
  have hrk : rs[k]? = some c.record := by
    rw [← h.1, List.getElem?_map, hc]
    rfl
  have hcrec : ForestOrdered rs c := forestOrdered_of_mem rs k s h c (List.getElem?_mem hc)
  have htake : rs.take (k + 1) = rs.take k ++ [c.record] := by
    rw [List.take_succ, hrk]
    rfl
  simp only [pass2Step, hc, hp, hj]
  constructor
  · rw [modifyIdx_map_record (fun g => GoComment.mk g.record (g.children ++ [c]))
      (fun c0 => rfl) j s, h.1]
  · intro e he
    rcases mem_modifyIdx _ j s e he with hmem | ⟨d, hd, rfl⟩
    · exact ⟨((h.2 e hmem).1).trans (take_succ_sublist rs k), (h.2 e hmem).2⟩
    · have hdmem := List.getElem?_mem hd
      constructor
      · simp only [GoComment.children, List.map_append, List.map_cons, List.map_nil]
        rw [htake]
        exact ((h.2 d hdmem).1).append (List.Sublist.refl _)
      · intro d' hd'
        simp only [GoComment.children, List.mem_append, List.mem_singleton] at hd'
        rcases hd' with hd' | rfl
        · exact (h.2 d hdmem).2 d' hd'
        · exact hcrec

theorem pass2_ok (rs : List CommentRec) (ids : List Int) (s : List GoComment)
    (h : StateOk rs 0 s) : StateOk rs rs.length (pass2 ids s) := by
  have hslen : s.length = rs.length := by
    have := congrArg List.length h.1
    simpa using this
  rw [pass2, hslen]
  exact foldl_range_inv (pass2Step ids) (StateOk rs) rs.length s h
    (fun i a hi hp => pass2Step_ok rs ids i a hi hp)

theorem resetChildren_ok (s : List GoComment) :
    StateOk (s.map GoComment.record) 0 (resetChildren s) := by
  constructor
  · simp [resetChildren, List.map_map, GoComment.record]
  · intro c hc
    rcases List.mem_map.mp hc with ⟨d, _, rfl⟩
    exact ⟨by simp [GoComment.children], by simp [GoComment.children]⟩

theorem pass3_eq_filter (s : List GoComment) :
    pass3 s = s.filter (fun c => c.record.parentId.isNone) := by
  suffices h : ∀ acc,
      s.foldl (fun acc c => if c.record.parentId.isNone then acc ++ [c] else acc) acc
        = acc ++ s.filter (fun c => c.record.parentId.isNone) by
    simpa [pass3] using h []
  induction s with
  | nil => simp
  | cons x xs ih =>
    intro acc
    rw [List.foldl_cons, List.filter_cons]
    by_cases hx : x.record.parentId.isNone = true
    · rw [if_pos hx, if_pos hx, ih (acc ++ [x]), List.append_assoc]
      rfl
    · rw [if_neg hx, if_neg hx, ih acc]

theorem map_record_filter (s : List GoComment) (p : CommentRec → Bool) :
    (s.filter (fun c => p c.record)).map GoComment.record
      = (s.map GoComment.record).filter p := by
  induction s with
  | nil => rfl
  | cons x xs ih => by_cases hx : p x.record <;> simp [List.filter_cons, hx, ih]

theorem forestOrdered_chrono (rs : List CommentRec)
    (hs : List.Pairwise (fun a b => a.createdAt ≤ b.createdAt) rs) :
    ∀ c, ForestOrdered rs c → ChildrenChrono c := by
  intro c h
  induction h with
  | mk r cs hsub _ ih =>
    refine ChildrenChrono.mk r cs ?_ ih
    have h1 : List.Pairwise (fun a b => a.createdAt ≤ b.createdAt)
        (cs.map GoComment.record) := List.Pairwise.sublist hsub hs
    rw [List.pairwise_map] at h1
    exact h1

/-! ### Claim C4 -/

/-- C4: the record sequence of the root nodes returned by
`buildCommentTree` is exactly the subsequence of null-parent input
records in original input order; every node anywhere in the returned
forest has a children sequence whose records form an order-preserving
subsequence of the input; and when the input is ordered by
non-decreasing creation timestamp (as `getCommentsByNewsID`'s
`ORDER BY created_at ASC` delivers it), every node's children are in
non-decreasing creation-timestamp order. -/
theorem buildCommentTree_order (s : List GoComment) :
    (buildCommentTree s).map GoComment.record
      = (s.map GoComment.record).filter (fun r => r.parentId.isNone) ∧
    (∀ c ∈ buildCommentTree s, ForestOrdered (s.map GoComment.record) c) ∧
    (List.Pairwise (fun a b => a.createdAt ≤ b.createdAt) (s.map GoComment.record) →
      ∀ c ∈ buildCommentTree s, ChildrenChrono c) := by
  by_cases hs : s.isEmpty = true
  · have hse : s = [] := List.isEmpty_iff.mp hs
    subst hse
    exact ⟨rfl, by simp [buildCommentTree, buildCommentTreeRun],
      by simp [buildCommentTree, buildCommentTreeRun]⟩
  · have hfin : StateOk (s.map GoComment.record) (s.map GoComment.record).length
        (pass2 (s.map (fun c => c.record.id)) (resetChildren s)) :=
      pass2_ok _ _ _ (resetChildren_ok s)
    have hbt : buildCommentTree s
        = pass3 (pass2 (s.map (fun c => c.record.id)) (resetChildren s)) := by
      simp [buildCommentTree, buildCommentTreeRun, hs]
    have hmem : ∀ c ∈ buildCommentTree s, ForestOrdered (s.map GoComment.record) c := by
      intro c hc
      rw [hbt, pass3_eq_filter] at hc
      have hc1 := List.mem_of_mem_filter hc
      cases c with
      | mk r cs =>
        have h1 := (hfin.2 _ hc1).1
        have h2 := (hfin.2 _ hc1).2
        rw [List.take_length] at h1
        simp only [GoComment.children] at h1 h2
        exact ForestOrdered.mk r cs h1 h2
    refine ⟨?_, hmem, fun hsorted c hc => forestOrdered_chrono _ hsorted c (hmem c hc)⟩
    rw [hbt, pass3_eq_filter, map_record_filter _ (fun r => r.parentId.isNone), hfin.1]

/-- C4 witness: the three-record chain is timestamp-sorted, and the
theorem yields chronologically ordered children throughout its forest. -/
theorem buildCommentTree_order_witness :
    List.Pairwise (fun a b => a.createdAt ≤ b.createdAt) (c1input.map GoComment.record) ∧
    ∀ c ∈ buildCommentTree c1input, ChildrenChrono c :=
  ⟨by decide, (buildCommentTree_order c1input).2.2 (by decide)⟩

/-! ### Claim C5 -/

theorem pass2Step_map_record (ids : List Int) (t : List GoComment) (i : Nat) :
    (pass2Step ids t i).map GoComment.record = t.map GoComment.record := by
  rcases hc : t[i]? with _ | c
  · simp [pass2Step, hc]
  rcases hp : c.record.parentId with _ | p
  · simp [pass2Step, hc, hp]
  rcases hj : lastIdxWithId ids p with _ | j
  · simp [pass2Step, hc, hp, hj]
  · simp only [pass2Step, hc, hp, hj]
    exact modifyIdx_map_record (fun g => GoComment.mk g.record (g.children ++ [c]))
      (fun c0 => rfl) j t

theorem pass2_map_record (ids : List Int) (s : List GoComment) :
    (pass2 ids s).map GoComment.record = s.map GoComment.record :=
  foldl_range_inv (pass2Step ids)
    (fun _ t => t.map GoComment.record = s.map GoComment.record)
    s.length s rfl
    (fun i a _ hp => by
      simp only at hp ⊢
      rw [pass2Step_map_record ids a i, hp])

theorem run_fst_records (s : List GoComment) :
    ((buildCommentTreeRun s).1).map GoComment.record = s.map GoComment.record := by
  by_cases hs : s.isEmpty = true
  · simp [buildCommentTreeRun, hs]
  · simp only [buildCommentTreeRun, hs]
    simp only [Bool.false_eq_true, if_false]
    rw [pass2_map_record]
    exact (resetChildren_ok s).1

theorem buildCommentTreeRun_congr (s t : List GoComment)
    (h : s.map GoComment.record = t.map GoComment.record) :
    buildCommentTreeRun s = buildCommentTreeRun t := by
  have hids : s.map (fun c => c.record.id) = t.map (fun c => c.record.id) := by
    have h2 := congrArg (List.map CommentRec.id) h
    simpa [List.map_map, Function.comp] using h2
  have hreset : resetChildren s = resetChildren t := by
    have h2 := congrArg (List.map (fun r => GoComment.mk r [])) h
    simpa [resetChildren, List.map_map, Function.comp] using h2
  have hemp : s.isEmpty = t.isEmpty := by
    cases s <;> cases t <;> simp_all
  by_cases hs : s.isEmpty = true
  · have hse : s = [] := List.isEmpty_iff.mp hs
    have hte : t = [] := List.isEmpty_iff.mp (hemp ▸ hs)
    subst hse
    subst hte
    rfl
  · have ht : ¬ t.isEmpty = true := by rw [← hemp]; exact hs
    unfold buildCommentTreeRun
    rw [if_neg hs, if_neg ht, hids, hreset]

/-- C5: the comment tree builder is deterministic at the value level —
two slices with equal record sequences (regardless of their incoming
`Children` fields, which the first pass resets) produce equal mutated
slices and equal forests — and idempotent: re-running the builder on
the slice it mutated yields the same forest again. -/
theorem buildCommentTree_deterministic_idempotent :
    (∀ s t : List GoComment, s.map GoComment.record = t.map GoComment.record →
      buildCommentTreeRun s = buildCommentTreeRun t) ∧
    (∀ s : List GoComment,
      buildCommentTree (buildCommentTreeRun s).1 = buildCommentTree s) := by
  refine ⟨buildCommentTreeRun_congr, fun s => ?_⟩
  unfold buildCommentTree
  rw [buildCommentTreeRun_congr ((buildCommentTreeRun s).1) s (run_fst_records s)]

/-- C5 witness at concrete value-equal inputs. -/
theorem buildCommentTree_deterministic_idempotent_witness :
    buildCommentTreeRun c5other = buildCommentTreeRun c1input ∧
    buildCommentTree (buildCommentTreeRun c1input).1 = buildCommentTree c1input :=
  ⟨buildCommentTree_deterministic_idempotent.1 c5other c1input (by decide),
   buildCommentTree_deterministic_idempotent.2 c1input⟩
